import Mathlib

/-!
Verification development for the Aura-X pipeline (Python sources under
`src/`): the resilient RPC client (`src/core/ollama_client.py`), the
sandboxed path resolver and process execution engine
(`src/core/executor.py`, `src/agents/coder.py`), the repair orchestrator
(`src/main.py`) and the plan validator (`src/agents/planner.py`).

Python strings are modelled as `List Char` (`PyStr`).  Filesystem paths
are modelled lexically in POSIX style: a `PyPath` is an absoluteness flag
plus a list of segments, and `resolve()` is lexical collapse of `..`
segments against a canonical current working directory (symlinks are not
modelled).  Fallible Python code is modelled with `Except`, where the
`error` payload is the exception text.
-/

namespace AuraX

/-- Python strings as lists of characters. -/
abbrev PyStr := List Char

/-- Coercion from Lean string literals. -/
def pys (s : String) : PyStr := s.data

/-- Python `str.isspace` / `str.strip()` whitespace set (ASCII subset). -/
def pyIsSpace (c : Char) : Bool :=
  c = ' ' || c = '\t' || c = '\n' || c = '\r' || c = '\x0b' || c = '\x0c'

/-- Drop matching characters from the right end of a list. -/
def dropEnd (p : Char → Bool) (s : PyStr) : PyStr :=
  (s.reverse.dropWhile p).reverse

/-- Python `str.strip()` (no arguments): drop whitespace from both ends. -/
def pyStrip (s : PyStr) : PyStr :=
  dropEnd pyIsSpace (s.dropWhile pyIsSpace)

/-- Python `str.strip(ch)` for a single character. -/
def pyStripChar (ch : Char) (s : PyStr) : PyStr :=
  dropEnd (fun c => c = ch) (s.dropWhile (fun c => c = ch))

/-- Python `str.lower()` (ASCII). -/
def pyLower (s : PyStr) : PyStr := s.map Char.toLower

/-! ### Lexical path model (POSIX flavour of `pathlib`) -/

/-- A `pathlib` path: absoluteness flag plus parsed segments
(`.` and empty segments are dropped at parse time, as `pathlib` does). -/
structure PyPath where
  absolute : Bool
  segments : List PyStr
deriving DecidableEq, Repr

/-- Parse a string into a `PyPath`, as the `pathlib` constructor does:
leading `/` makes it absolute; empty and `.` segments are dropped. -/
def parsePath (s : PyStr) : PyPath :=
  { absolute := s.head? = some '/'
    segments := (s.splitOn '/').filter (fun seg => seg ≠ [] && seg ≠ ['.']) }

/-- `pathlib`'s `/` operator: an absolute right operand replaces the left. -/
def joinPath (base child : PyPath) : PyPath :=
  if child.absolute then child
  else { absolute := base.absolute, segments := base.segments ++ child.segments }

/-- View an already-resolved segment list as an absolute `PyPath`. -/
def asAbs (segs : List PyStr) : PyPath := { absolute := true, segments := segs }

/-- One step of `..`-collapse over a reversed accumulator:
`..` pops the most recent segment (no effect at the root). -/
def collapseStep (acc : List PyStr) (seg : PyStr) : List PyStr :=
  if seg = pys ".." then acc.tail else seg :: acc

/-- Collapse `..` segments left to right, accumulating in reverse. -/
def collapseRev (acc : List PyStr) (segs : List PyStr) : List PyStr :=
  segs.foldl collapseStep acc

/-- `Path.resolve()` modelled lexically: make the path absolute against
the canonical current working directory `cwd` and collapse `..`. -/
def resolvePath (cwd : List PyStr) (p : PyPath) : List PyStr :=
  if p.absolute then (collapseRev [] p.segments).reverse
  else (collapseRev cwd.reverse p.segments).reverse

/-- Does `target` lie at or below `root` (segment-wise)?  This is
`root in target.parents or target == root` from the source. -/
def underRoot (root target : List PyStr) : Bool :=
  match root, target with
  | [], _ => true
  | _ :: _, [] => false
  | a :: as, b :: bs => a = b && underRoot as bs

/-- The fixed `projects` root directory (`PROJECTS_ROOT = Path("projects")`). -/
def projectsRootPath : PyPath := parsePath (pys "projects")

/-- The canonical project root
`(self.projects_root / project_name.strip()).resolve()` of
`_resolve_project_path` (`src/core/executor.py` lines 78–83; identically
`src/agents/coder.py` lines 141–146, whose caller `write_file` strips the
arguments). -/
def projectRootOf (cwd : List PyStr) (projectName : PyStr) : List PyStr :=
  resolvePath cwd (joinPath projectsRootPath (parsePath (pyStrip projectName)))

/-- The candidate path `(project_root / file_name.strip()).resolve()`. -/
def targetOf (cwd : List PyStr) (projectName fileName : PyStr) : List PyStr :=
  resolvePath cwd (joinPath (asAbs (projectRootOf cwd projectName)) (parsePath (pyStrip fileName)))

/-- `_resolve_project_path` from `src/core/executor.py` (lines 78–83), and
identically `CoderAgent._resolve_project_path` from `src/agents/coder.py`
(lines 141–146): resolve root and candidate to canonical form and fail
with `ValueError` unless the candidate is at or below the root
(`project_root not in target_path.parents and target_path != project_root`). -/
def resolveProjectPath (cwd : List PyStr) (projectName fileName : PyStr) :
    Except PyStr (List PyStr) :=
  if underRoot (projectRootOf cwd projectName) (targetOf cwd projectName fileName) then
    Except.ok (targetOf cwd projectName fileName)
  else Except.error (pys "Invalid path outside project root: " ++ fileName)

/-! ### Filesystem model -/

/-- The filesystem: an association list from resolved absolute paths
(segment lists) to file contents.  The most recent write shadows. -/
abbrev FS := List (List PyStr × PyStr)

/-- Look a path up in the filesystem. -/
def fsRead : FS → List PyStr → Option PyStr
  | [], _ => none
  | (k, v) :: rest, key => if key = k then some v else fsRead rest key

/-- Write (or overwrite) a file. -/
def fsWrite (fs : FS) (key : List PyStr) (content : PyStr) : FS :=
  (key, content) :: fs

/-- `CoderAgent.write_file` from `src/agents/coder.py` (lines 59–68,
148–150): resolve the target through the sandboxed resolver, then create
parent directories and write the content.  On a resolver failure the
exception propagates and the filesystem is untouched. -/
def writeFile (cwd : List PyStr) (fs : FS) (projectName fileName content : PyStr) :
    FS × Except PyStr (List PyStr) :=
  match resolveProjectPath cwd projectName fileName with
  | Except.error e => (fs, Except.error e)
  | Except.ok target => (fsWrite fs target content, Except.ok target)

/-! ### Process execution engine (`src/core/executor.py`) -/

/-- `ExecutionResult` from `src/core/executor.py` (lines 10–20). -/
structure ExecutionResult where
  file_path : List PyStr
  return_code : Int
  stdout : PyStr
  stderr : PyStr
  timed_out : Bool
deriving DecidableEq, Repr

/-- The `has_error` property (executor.py lines 18–20):
`self.timed_out or self.return_code != 0 or bool(self.stderr.strip())`. -/
def ExecutionResult.hasError (r : ExecutionResult) : Bool :=
  r.timed_out || r.return_code ≠ 0 || !(pyStrip r.stderr).isEmpty

/-- `pathlib`'s `.suffix` of a file name: the extension from the last dot,
empty when there is no dot strictly inside the name. -/
def pySuffix (name : PyStr) : PyStr :=
  let tailRev := name.reverse.takeWhile (fun c => c ≠ '.')
  if tailRev.length = name.length then []
  else
    let i := name.length - tailRev.length - 1
    if 0 < i ∧ i < name.length - 1 then name.drop i else []

/-- `path.suffix.lower() == ".py"` on a resolved path's final component. -/
def hasPySuffix (path : List PyStr) : Bool :=
  pyLower (pySuffix (path.getLast?.getD [])) = pys ".py"

/-- What the child process does: either `communicate()` returns within the
timeout (with the process's real exit status, possibly `None`, and its
decoded output), or the wall-clock timeout fires and the output shown is
what draining after `kill()` yields. -/
inductive ProcOutcome where
  | completed (returncode : Option Int) (out err : PyStr)
  | timedOut (out err : PyStr)
deriving DecidableEq, Repr

/-- Render a resolved absolute path for interpolation into messages. -/
def joinSegs (segs : List PyStr) : PyStr :=
  segs.foldl (fun acc s => acc ++ '/' :: s) []

/-- The timeout notice appended to stderr (executor.py lines 64–68). -/
def timeoutMessage (timeoutSeconds : Nat) : PyStr :=
  pys "Execution timed out after " ++ (toString timeoutSeconds).data ++ pys " seconds."

/-- `ExecutionEngine.run_python_file` from `src/core/executor.py`
(lines 33–76): resolve the target, fail fast on a missing file or a
non-`.py` suffix, then run the child process.  The returned `Bool`
records whether `process.kill()` was called (the timeout branch).  On
normal completion `return_code` is the real exit status (`1` when the
status is `None`); on timeout `timed_out = true`, `return_code = 124`,
and the timeout notice is appended to the drained stderr before a final
`strip()`. -/
def runPythonFile (timeoutSeconds : Nat) (cwd : List PyStr) (fs : FS)
    (projectName fileName : PyStr) (proc : ProcOutcome) :
    Except PyStr (ExecutionResult × Bool) :=
  match resolveProjectPath cwd projectName fileName with
  | Except.error e => Except.error e
  | Except.ok filePath =>
    if fsRead fs filePath = none then
      Except.error (pys "Cannot execute missing file: " ++ joinSegs filePath)
    else if ¬ hasPySuffix filePath then
      Except.error (pys "ExecutionEngine only supports Python files: " ++ joinSegs filePath)
    else
      match proc with
      | ProcOutcome.completed rc out err =>
        Except.ok
          ({ file_path := filePath, return_code := rc.getD 1, stdout := out
             stderr := err, timed_out := false }, false)
      | ProcOutcome.timedOut out err =>
        Except.ok
          ({ file_path := filePath, return_code := 124, stdout := out
             stderr := pyStrip (err ++ '\n' :: timeoutMessage timeoutSeconds)
             timed_out := true }, true)

/-! ### Project-name sanitization and the repair orchestrator (`src/main.py`) -/

/-- Characters the sanitizer keeps: the regex class `[A-Za-z0-9_-]`. -/
def allowedChar (c : Char) : Bool :=
  ('A' ≤ c && c ≤ 'Z') || ('a' ≤ c && c ≤ 'z') || ('0' ≤ c && c ≤ '9') ||
    c = '_' || c = '-'

/-- Helper for the regex substitution: `inRun` records whether the
previous character belonged to a run of disallowed characters (so the
run's single replacement `_` has already been emitted). -/
def collapseDisallowedAux : Bool → PyStr → PyStr
  | _, [] => []
  | inRun, c :: rest =>
    if allowedChar c then c :: collapseDisallowedAux false rest
    else if inRun then collapseDisallowedAux true rest
    else '_' :: collapseDisallowedAux true rest

/-- `re.sub(r"[^A-Za-z0-9_-]+", "_", s)`: replace each maximal run of
disallowed characters by a single underscore. -/
def collapseDisallowed (s : PyStr) : PyStr :=
  collapseDisallowedAux false s

/-- `AuraXSystem._sanitize_project_name` from `src/main.py` (lines 134–137):
strip whitespace, collapse disallowed runs to `_`, strip underscores from
both ends, and fall back to `"generated_project"` when empty. -/
def sanitizeProjectName (projectName : PyStr) : PyStr :=
  let cleaned := pyStripChar '_' (collapseDisallowed (pyStrip projectName))
  if cleaned = [] then pys "generated_project" else cleaned

/-- A validated plan task (the dict built by `_validate_plan`). -/
structure PlanTask where
  step_number : Int
  description : PyStr
  files_to_create : List PyStr
deriving DecidableEq, Repr

/-- A validated plan (the dict returned by `_validate_plan`). -/
structure Plan where
  project_name : PyStr
  tech_stack : List PyStr
  tasks : List PlanTask
deriving DecidableEq, Repr

/-- External collaborators of the orchestrator, as oracles.  `gen` is
`CoderAgent.generate_file_code` (file name, task description), `fix` is
`DebuggerAgent.fix_code` (original code, error message, file name); an
`error` value is a raised exception's text.  `proc` gives the child
process's behaviour for a given file name and 0-indexed attempt. -/
structure Oracles where
  gen : PyStr → PyStr → Except PyStr PyStr
  fix : PyStr → PyStr → PyStr → Except PyStr PyStr
  proc : PyStr → Nat → ProcOutcome

/-- Stage at which a file was abandoned (the logged skip). -/
inductive Stage where
  | generation | writing | reading | repairing | rewriting
deriving DecidableEq, Repr

/-- Observable per-file events of the orchestrator. -/
inductive Event where
  | genCall
  | writeCall
  | execCall (r : ExecutionResult)
  | repairCall
  | skipped (s : Stage) (msg : PyStr)
deriving DecidableEq, Repr

/-- Is this event an execution attempt? -/
def Event.isExec : Event → Bool
  | Event.execCall _ => true
  | _ => false

/-- Is this event a call to the repair collaborator? -/
def Event.isRepair : Event → Bool
  | Event.repairCall => true
  | _ => false

/-- `AuraXSystem._execute_file` from `src/main.py` (lines 78–92): run the
file; any exception from the execution engine is converted into a
synthesized `ExecutionResult` with `return_code = 1`, empty stdout, the
exception text as stderr and `timed_out = False`, at the fake path
`(Path("projects") / project_name / file_name).resolve()`. -/
def executeFile (timeoutSeconds : Nat) (cwd : List PyStr) (fs : FS)
    (projectName fileName : PyStr) (proc : ProcOutcome) : ExecutionResult :=
  match runPythonFile timeoutSeconds cwd fs projectName fileName proc with
  | Except.ok (r, _) => r
  | Except.error e =>
    { file_path :=
        resolvePath cwd
          (joinPath (joinPath projectsRootPath (parsePath projectName)) (parsePath fileName))
      return_code := 1, stdout := [], stderr := e, timed_out := false }

/-- The read target of `_attempt_fix_once` (main.py line 100):
`(Path("projects") / project_name / file_name).resolve()` — note: no
`strip()` here, unlike the write path. -/
def fixReadTarget (cwd : List PyStr) (projectName fileName : PyStr) : List PyStr :=
  resolvePath cwd
    (joinPath (joinPath projectsRootPath (parsePath projectName)) (parsePath fileName))

/-- `AuraXSystem._attempt_fix_once` from `src/main.py` (lines 94–132):
read the just-written file, call the repair collaborator once with the
original code and the captured stderr (or `"Exit code: <rc>"` when stderr
is empty, via Python's `or` on the string), write the corrected code back
through the sandboxed writer, and re-execute once.  Every failure returns
after a logged skip; the re-execution's outcome is only reported. -/
def attemptFixOnce (timeoutSeconds : Nat) (cwd : List PyStr) (o : Oracles) (fs : FS)
    (projectName fileName : PyStr) (firstResult : ExecutionResult) :
    FS × List Event :=
  match fsRead fs (fixReadTarget cwd projectName fileName) with
  | none => (fs, [Event.skipped Stage.reading (pys "cannot read file")])
  | some originalCode =>
    let errorMessage :=
      if firstResult.stderr = [] then
        pys "Exit code: " ++ (toString firstResult.return_code).data
      else firstResult.stderr
    match o.fix originalCode errorMessage fileName with
    | Except.error e => (fs, [Event.repairCall, Event.skipped Stage.repairing e])
    | Except.ok fixedCode =>
      let written := writeFile cwd fs projectName fileName fixedCode
      match written.2 with
      | Except.error e =>
        (written.1, [Event.repairCall, Event.writeCall, Event.skipped Stage.rewriting e])
      | Except.ok _ =>
        let secondResult := executeFile timeoutSeconds cwd written.1 projectName fileName
          (o.proc fileName 1)
        (written.1, [Event.repairCall, Event.writeCall, Event.execCall secondResult])

/-- The per-file body of `AuraXSystem.run`'s loop (`src/main.py` lines
37–72): generate, write, then — only for `.py` targets — execute, and on
`has_error` attempt the single repair.  Exceptions from the generator and
the writer are caught here and turn into a skip of that file. -/
def processFile (timeoutSeconds : Nat) (cwd : List PyStr) (o : Oracles) (fs : FS)
    (projectName description fileName : PyStr) : FS × List Event :=
  match o.gen fileName description with
  | Except.error e => (fs, [Event.genCall, Event.skipped Stage.generation e])
  | Except.ok code =>
    let written := writeFile cwd fs projectName fileName code
    match written.2 with
    | Except.error e =>
      (written.1, [Event.genCall, Event.writeCall, Event.skipped Stage.writing e])
    | Except.ok writtenPath =>
      if ¬ hasPySuffix writtenPath then
        (written.1, [Event.genCall, Event.writeCall])
      else
        let firstResult := executeFile timeoutSeconds cwd written.1 projectName fileName
          (o.proc fileName 0)
        if ¬ firstResult.hasError then
          (written.1, [Event.genCall, Event.writeCall, Event.execCall firstResult])
        else
          let fixed :=
            attemptFixOnce timeoutSeconds cwd o written.1 projectName fileName firstResult
          (fixed.1, [Event.genCall, Event.writeCall, Event.execCall firstResult] ++ fixed.2)

/-- The report the orchestrator produces for one file. -/
structure FileReport where
  fileName : PyStr
  events : List Event
deriving DecidableEq, Repr

/-- Process the files of one task, in order, threading the filesystem. -/
def processFiles (timeoutSeconds : Nat) (cwd : List PyStr) (o : Oracles) (fs : FS)
    (projectName description : PyStr) : List PyStr → FS × List FileReport
  | [] => (fs, [])
  | fileName :: rest =>
    let step := processFile timeoutSeconds cwd o fs projectName description fileName
    let next := processFiles timeoutSeconds cwd o step.1 projectName description rest
    (next.1, { fileName := fileName, events := step.2 } :: next.2)

/-- Process the plan's tasks in order, threading the filesystem. -/
def processTasks (timeoutSeconds : Nat) (cwd : List PyStr) (o : Oracles) (fs : FS)
    (projectName : PyStr) : List PlanTask → FS × List FileReport
  | [] => (fs, [])
  | task :: rest =>
    let step :=
      processFiles timeoutSeconds cwd o fs projectName task.description task.files_to_create
    let next := processTasks timeoutSeconds cwd o step.1 projectName rest
    (next.1, step.2 ++ next.2)

/-- The whole-run report of `AuraXSystem.run`. -/
structure RunReport where
  projectRoot : PyPath
  reports : List FileReport
deriving DecidableEq, Repr

/-- `AuraXSystem.run` from `src/main.py` (lines 19–76), after the external
planner returned a validated plan: sanitize the project name, derive the
project root `Path("projects") / project_name`, then process every file of
every task in order. -/
def runPlan (timeoutSeconds : Nat) (cwd : List PyStr) (o : Oracles) (fs : FS)
    (plan : Plan) : FS × RunReport :=
  let projectName := sanitizeProjectName plan.project_name
  let run := processTasks timeoutSeconds cwd o fs projectName plan.tasks
  (run.1, { projectRoot := joinPath projectsRootPath (parsePath projectName)
            reports := run.2 })

/-! ### JSON values -/

/-- JSON values, as Python's `json` module parses them (numbers are
modelled as integers; floats play no role in the verified claims). -/
inductive JsonVal where
  | null
  | bool (b : Bool)
  | num (n : Int)
  | str (s : PyStr)
  | arr (items : List JsonVal)
  | obj (fields : List (PyStr × JsonVal))

/-- `dict.get(key)`: first matching field, `None` when absent. -/
def lookupField : List (PyStr × JsonVal) → PyStr → Option JsonVal
  | [], _ => none
  | (k, v) :: rest, key => if key = k then some v else lookupField rest key

/-- Python `str(x)` on a parsed JSON value.  String values render as
themselves; the rendering of non-string values is modelled abstractly
(only its non-emptiness after `strip()` matters to the verified claims,
and Python's rendering of numbers, booleans, `None`, lists and dicts is
never empty nor whitespace-only). -/
def pyRender : JsonVal → PyStr
  | JsonVal.str s => s
  | JsonVal.num n => (toString n).data
  | JsonVal.bool b => if b then pys "True" else pys "False"
  | JsonVal.null => pys "None"
  | JsonVal.arr _ => pys "[...]"
  | JsonVal.obj _ => pys "\x7b...\x7d"

/-! ### Resilient RPC client (`src/core/ollama_client.py`) -/

/-- What one HTTP attempt by `requests` produces: a transport-level
failure (`requests.ConnectionError` / `requests.Timeout` — the flag
records whether it was a `requests.Timeout`), or a response with an HTTP
status and a body. -/
inductive AttemptOutcome where
  | transport (isTimeout : Bool)
  | httpResponse (status : Nat) (body : Option JsonVal)

/-- Did this attempt raise a `requests.RequestException`?
`response.raise_for_status()` raises `requests.HTTPError` — a subclass of
`RequestException` — exactly for 4xx/5xx statuses. -/
def AttemptOutcome.isRequestException : AttemptOutcome → Bool
  | AttemptOutcome.transport _ => true
  | AttemptOutcome.httpResponse status _ => 400 ≤ status

/-- Structured classification of the `RuntimeError`s raised by the client. -/
inductive RpcError where
  | requestFailed (timedOut : Bool)
  | nonJsonBody
  | payloadNotObject
  | serverReported (msg : PyStr)
  | emptyOutput
deriving DecidableEq

/-- The observable run of `_request_json`: its result, the number of HTTP
attempts made, and the `time.sleep` durations (in seconds, as rationals —
the source's float arithmetic `base * 2**attempt` is exact for these
values). -/
structure RequestRun where
  result : Except RpcError (List (PyStr × JsonVal))
  attempts : Nat
  sleeps : List ℚ

/-- The retry loop of `OllamaClient._request_json`
(`src/core/ollama_client.py` lines 101–132), from attempt number
`attempt` with `remaining` loop iterations left (the loop is
`for attempt in range(retries + 1)`, so the invariant is
`remaining = retries + 1 - attempt`; the `remaining = 0` base case is the
unreachable `raise` after the loop, line 132).  A `RequestException`
(transport failure, or the `HTTPError` raised by `raise_for_status()` on
a 4xx/5xx status) sleeps `retry_backoff_seconds * 2**attempt` (when
nonzero) and retries while `attempt < retries`; on the last attempt it
raises the final `RuntimeError` instead.  A non-JSON body raises
immediately through the `except ValueError` branch; a JSON body that is
not an object raises immediately (that `RuntimeError` is caught by
neither handler); an object body is returned. -/
def requestJsonAux (base : ℚ) (outcomes : Nat → AttemptOutcome) :
    Nat → Nat → List ℚ → RequestRun
  | 0, attempt, sleeps =>
    { result := Except.error (RpcError.requestFailed false)
      attempts := attempt, sleeps := sleeps }
  | remaining + 1, attempt, sleeps =>
    match outcomes attempt with
    | AttemptOutcome.transport isTimeout =>
      if remaining = 0 then
        { result := Except.error (RpcError.requestFailed isTimeout)
          attempts := attempt + 1, sleeps := sleeps }
      else
        let backoff := base * 2 ^ attempt
        requestJsonAux base outcomes remaining (attempt + 1)
          (sleeps ++ if backoff ≠ 0 then [backoff] else [])
    | AttemptOutcome.httpResponse status body =>
      if 400 ≤ status then
        if remaining = 0 then
          { result := Except.error (RpcError.requestFailed false)
            attempts := attempt + 1, sleeps := sleeps }
        else
          let backoff := base * 2 ^ attempt
          requestJsonAux base outcomes remaining (attempt + 1)
            (sleeps ++ if backoff ≠ 0 then [backoff] else [])
      else
        match body with
        | none =>
          { result := Except.error RpcError.nonJsonBody
            attempts := attempt + 1, sleeps := sleeps }
        | some (JsonVal.obj fields) =>
          { result := Except.ok fields, attempts := attempt + 1, sleeps := sleeps }
        | some _ =>
          { result := Except.error RpcError.payloadNotObject
            attempts := attempt + 1, sleeps := sleeps }

/-- `OllamaClient._request_json` with the default retry budget
(`retry_count=None`, so `retries = max_retries`); the constructor clamps
`max_retries` to `max(0, ·)` and the backoff base to `max(0.0, ·)`. -/
def requestJson (maxRetries : Int) (backoffBase : ℚ) (outcomes : Nat → AttemptOutcome) :
    RequestRun :=
  requestJsonAux (max 0 backoffBase) outcomes ((max 0 maxRetries).toNat + 1) 0 []

/-- The observable run of `OllamaClient.generate`. -/
structure GenerateRun where
  result : Except RpcError PyStr
  attempts : Nat
  sleeps : List ℚ

/-- `OllamaClient.generate` from `src/core/ollama_client.py`
(lines 38–62): one `_request_json` call; a well-formed object body whose
`error` field is a string with non-empty `strip()` raises
`RuntimeError("Ollama API error: ...")`; else the `response` field
(default `""`) must be a string with non-empty `strip()`, which is
returned stripped. -/
def generate (maxRetries : Int) (backoffBase : ℚ) (outcomes : Nat → AttemptOutcome) :
    GenerateRun :=
  let run := requestJson maxRetries backoffBase outcomes
  let result :=
    match run.result with
    | Except.error e => Except.error e
    | Except.ok fields =>
      let responseResult :=
        match (lookupField fields (pys "response")).getD (JsonVal.str []) with
        | JsonVal.str s =>
          if (pyStrip s).isEmpty then Except.error RpcError.emptyOutput
          else Except.ok (pyStrip s)
        | _ => Except.error RpcError.emptyOutput
      match lookupField fields (pys "error") with
      | some (JsonVal.str s) =>
        if (pyStrip s).isEmpty then responseResult
        else Except.error (RpcError.serverReported (pyStrip s))
      | _ => responseResult
  { result := result, attempts := run.attempts, sleeps := run.sleeps }

/-- The classification `_request_json` applies to the body of the first
response that arrives with a non-error HTTP status. -/
def firstBodyResult : Option JsonVal → Except RpcError (List (PyStr × JsonVal))
  | none => Except.error RpcError.nonJsonBody
  | some (JsonVal.obj fields) => Except.ok fields
  | some _ => Except.error RpcError.payloadNotObject

/-! ### Plan validation (`src/agents/planner.py`) -/

/-- Normalization of one task dict, from the loop body of
`PlannerAgent._validate_plan` (`src/agents/planner.py` lines 176–205):
skip non-dict entries, entries whose `description` is not a string with
non-empty `strip()`, entries whose `files_to_create` is not a list, and
entries with no surviving file after each entry is rendered with `str()`
and stripped; `step_number` is kept when it is an integer (Python's
`isinstance(·, int)` also accepts booleans, which count as `1`/`0`) and
otherwise replaced by the task's 1-based position `index`. -/
def normTask (index : Int) (t : JsonVal) : Option PlanTask :=
  match t with
  | JsonVal.obj fields =>
    match lookupField fields (pys "description") with
    | some (JsonVal.str d) =>
      if (pyStrip d).isEmpty then none
      else
        match lookupField fields (pys "files_to_create") with
        | some (JsonVal.arr fps) =>
          let normalizedFiles :=
            (fps.map (fun fp => pyStrip (pyRender fp))).filter (fun f => !f.isEmpty)
          if normalizedFiles.isEmpty then none
          else
            let step :=
              match lookupField fields (pys "step_number") with
              | some (JsonVal.num n) => n
              | some (JsonVal.bool b) => if b then 1 else 0
              | _ => index
            some { step_number := step, description := pyStrip d
                   files_to_create := normalizedFiles }
        | _ => none
    | _ => none
  | _ => none

/-- `for index, task in enumerate(tasks, start=1)` over the raw task
list, collecting the tasks `normTask` keeps. -/
def normTasks : Int → List JsonVal → List PlanTask
  | _, [] => []
  | index, t :: rest =>
    match normTask index t with
    | some task => task :: normTasks (index + 1) rest
    | none => normTasks (index + 1) rest

/-- `PlannerAgent._validate_plan` from `src/agents/planner.py`
(lines 166–222): raise unless `project_name` is a string with non-empty
`strip()`; raise unless `tasks` is a non-empty list; silently drop
invalid tasks; raise when no task survives; normalize `tech_stack` to a
list of non-empty stripped renderings (empty when absent or not a list). -/
def validatePlan (plan : List (PyStr × JsonVal)) : Except PyStr Plan :=
  match lookupField plan (pys "project_name") with
  | some (JsonVal.str projectName) =>
    if (pyStrip projectName).isEmpty then
      Except.error (pys "Planner output missing valid 'project_name'.")
    else
      match lookupField plan (pys "tasks") with
      | some (JsonVal.arr tasks) =>
        if tasks.isEmpty then
          Except.error (pys "Planner output missing non-empty 'tasks' list.")
        else
          let normalizedTasks := normTasks 1 tasks
          if normalizedTasks.isEmpty then
            Except.error (pys "Planner output has no valid tasks after validation.")
          else
            let techStack :=
              match lookupField plan (pys "tech_stack") with
              | some (JsonVal.arr xs) => xs
              | _ => []
            let normalizedTechStack :=
              (techStack.map (fun x => pyStrip (pyRender x))).filter (fun x => !x.isEmpty)
            Except.ok
              { project_name := pyStrip projectName
                tech_stack := normalizedTechStack, tasks := normalizedTasks }
      | _ => Except.error (pys "Planner output missing non-empty 'tasks' list.")
  | _ => Except.error (pys "Planner output missing valid 'project_name'.")

/-! ### Spec-side restatement of the validation failure conditions -/

/-- Does the raw plan carry a string `project_name` that is non-blank
after trimming?  (Spec-side condition used to characterize when
`_validate_plan` raises.) -/
def goodProjectName (plan : List (PyStr × JsonVal)) : Bool :=
  match lookupField plan (pys "project_name") with
  | some (JsonVal.str name) => !(pyStrip name).isEmpty
  | _ => false

/-- The raw `tasks` value, when it is a list. -/
def rawTasks (plan : List (PyStr × JsonVal)) : Option (List JsonVal) :=
  match lookupField plan (pys "tasks") with
  | some (JsonVal.arr ts) => some ts
  | _ => none

/-- Does the raw plan carry a non-empty `tasks` list? -/
def goodTasksList (plan : List (PyStr × JsonVal)) : Bool :=
  match rawTasks plan with
  | some ts => !ts.isEmpty
  | none => false

/-- Does at least one raw task survive normalization? -/
def hasSurvivor (plan : List (PyStr × JsonVal)) : Bool :=
  match rawTasks plan with
  | some ts => !(normTasks 1 ts).isEmpty
  | none => false

/-- Spec-side condition: validation raises exactly when the project name
is missing or blank, the tasks list is missing or empty, or no task
survives normalization. -/
def validateRaises (plan : List (PyStr × JsonVal)) : Bool :=
  !(goodProjectName plan && goodTasksList plan && hasSurvivor plan)

/-! ## Shared lemmas about the string model -/

theorem dropWhile_eq_self_of (p : Char → Bool) (s : PyStr)
    (h : ∀ c ∈ s, p c = false) : s.dropWhile p = s := by
  cases s with
  | nil => rfl
  | cons a t =>
    rw [List.dropWhile_cons, h a (List.mem_cons_self a t)]
    simp

theorem dropWhile_idem (p : Char → Bool) (l : PyStr) :
    (l.dropWhile p).dropWhile p = l.dropWhile p := by
  induction l with
  | nil => rfl
  | cons a t ih =>
    rw [List.dropWhile_cons]
    by_cases hp : p a = true
    · rw [if_pos hp]; exact ih
    · rw [if_neg hp, List.dropWhile_cons, if_neg hp]

theorem head_dropWhile_false (p : Char → Bool) (l : PyStr) :
    ∀ b bs, l.dropWhile p = b :: bs → p b = false := by
  induction l with
  | nil => intro b bs h; simp at h
  | cons a t ih =>
    intro b bs h
    rw [List.dropWhile_cons] at h
    by_cases hp : p a = true
    · rw [if_pos hp] at h; exact ih b bs h
    · rw [if_neg hp] at h
      cases h
      exact Bool.eq_false_iff.mpr hp

theorem pyStrip_eq_nil_iff (s : PyStr) :
    pyStrip s = [] ↔ ∀ c ∈ s, pyIsSpace c = true := by
  unfold pyStrip dropEnd
  rw [List.reverse_eq_nil_iff, List.dropWhile_eq_nil_iff]
  constructor
  · intro h c hc
    by_cases hmem : c ∈ s.dropWhile pyIsSpace
    · exact h c (List.mem_reverse.mpr hmem)
    · have hsplit : c ∈ s.takeWhile pyIsSpace ++ s.dropWhile pyIsSpace := by
        rw [List.takeWhile_append_dropWhile pyIsSpace s]; exact hc
      rcases List.mem_append.mp hsplit with h1 | h1
      · exact List.mem_takeWhile_imp h1
      · exact absurd h1 hmem
  · intro h a ha
    exact h a ((List.dropWhile_suffix pyIsSpace).subset (List.mem_reverse.mp ha))

theorem mem_of_mem_pyStrip {c : Char} {s : PyStr} (h : c ∈ pyStrip s) : c ∈ s := by
  unfold pyStrip dropEnd at h
  have h1 := List.mem_reverse.mp h
  have h2 := (List.dropWhile_suffix pyIsSpace).subset h1
  have h3 := List.mem_reverse.mp h2
  exact (List.dropWhile_suffix pyIsSpace).subset h3

theorem pyStrip_eq_self (s : PyStr) (h : ∀ c ∈ s, pyIsSpace c = false) :
    pyStrip s = s := by
  unfold pyStrip dropEnd
  rw [dropWhile_eq_self_of pyIsSpace s h,
    dropWhile_eq_self_of pyIsSpace s.reverse (fun c hc => h c (List.mem_reverse.mp hc)),
    List.reverse_reverse]

theorem dropEnd_of_last (p : Char → Bool) (l : PyStr) (b : Char) (bs : PyStr)
    (h : l.reverse = b :: bs) (hb : p b = false) : dropEnd p l = l := by
  unfold dropEnd
  rw [h, List.dropWhile_cons, hb]
  simp only [Bool.false_eq_true, if_false]
  rw [← h, List.reverse_reverse]

theorem suffix_dropWhile_append (p : Char → Bool) (err msg : PyStr) (b : Char)
    (bs : PyStr) (hmsg : msg = b :: bs) (hb : p b = false) :
    msg <:+ (err ++ msg).dropWhile p := by
  induction err with
  | nil =>
    simp only [List.nil_append]
    rw [hmsg, List.dropWhile_cons, hb]
    simp
  | cons c cs ih =>
    rw [List.cons_append, List.dropWhile_cons]
    by_cases hc : p c = true
    · rw [if_pos hc]; exact ih
    · rw [if_neg hc]
      exact (List.suffix_append cs msg).trans (List.suffix_cons c (cs ++ msg))

theorem suffix_pyStrip_append (err msg : PyStr) (hd lst : Char) (hdTl lstTl : PyStr)
    (hhead : msg = hd :: hdTl) (hhd : pyIsSpace hd = false)
    (hrev : msg.reverse = lst :: lstTl) (hlst : pyIsSpace lst = false) :
    msg <:+ pyStrip (err ++ msg) := by
  unfold pyStrip
  have hsuf : msg <:+ (err ++ msg).dropWhile pyIsSpace :=
    suffix_dropWhile_append pyIsSpace err msg hd hdTl hhead hhd
  obtain ⟨u, hu⟩ := hsuf
  have hrevL : ((err ++ msg).dropWhile pyIsSpace).reverse = lst :: (lstTl ++ u.reverse) := by
    rw [← hu, List.reverse_append, hrev, List.cons_append]
  rw [dropEnd_of_last pyIsSpace _ lst (lstTl ++ u.reverse) hrevL hlst]
  exact ⟨u, hu⟩

theorem pyStrip_reverse_eq (s : PyStr) :
    (pyStrip s).reverse = (s.dropWhile pyIsSpace).reverse.dropWhile pyIsSpace := by
  unfold pyStrip dropEnd
  rw [List.reverse_reverse]

theorem pyStrip_idem (s : PyStr) : pyStrip (pyStrip s) = pyStrip s := by
  rcases hB : pyStrip s with _ | ⟨b, bs⟩
  · rfl
  · rw [← hB]
    have hBsuf : (pyStrip s).reverse <:+ (s.dropWhile pyIsSpace).reverse := by
      rw [pyStrip_reverse_eq]
      exact List.dropWhile_suffix pyIsSpace
    have hBpre : pyStrip s <+: s.dropWhile pyIsSpace := by
      rw [← List.reverse_suffix]; exact hBsuf
    obtain ⟨r, hr⟩ := hBpre
    have hAeq : s.dropWhile pyIsSpace = b :: (bs ++ r) := by
      rw [← hr, hB, List.cons_append]
    have hb : pyIsSpace b = false := head_dropWhile_false pyIsSpace s b (bs ++ r) hAeq
    have hBdrop : (pyStrip s).dropWhile pyIsSpace = pyStrip s := by
      rw [hB, List.dropWhile_cons, hb]
      simp
    rcases hRev : (pyStrip s).reverse with _ | ⟨c, cs⟩
    · rw [hB] at hRev; simp at hRev
    · have hc : pyIsSpace c = false := by
        refine head_dropWhile_false pyIsSpace (s.dropWhile pyIsSpace).reverse c cs ?_
        rw [← pyStrip_reverse_eq, hRev]
      have step1 : pyStrip (pyStrip s) =
          dropEnd pyIsSpace ((pyStrip s).dropWhile pyIsSpace) := rfl
      rw [step1, hBdrop]
      exact dropEnd_of_last pyIsSpace (pyStrip s) c cs hRev hc

/-! ## Claim theorems -/

/-- C4: for every `ExecutionResult`, `has_error` equals
`timed_out OR return_code != 0 OR stderr non-empty after trimming`; in
particular a result with `return_code = 0`, `timed_out = false` and any
stderr containing a non-whitespace character has `has_error = true`, and
such a result whose stderr is empty or whitespace-only has
`has_error = false`. -/
theorem hasError_characterization :
    (∀ r : ExecutionResult,
      r.hasError = true ↔
        (r.timed_out = true ∨ r.return_code ≠ 0 ∨ pyStrip r.stderr ≠ [])) ∧
    (∀ fp out err, (∃ c ∈ err, pyIsSpace c = false) →
      (ExecutionResult.mk fp 0 out err false).hasError = true) ∧
    (∀ fp out err, (∀ c ∈ err, pyIsSpace c = true) →
      (ExecutionResult.mk fp 0 out err false).hasError = false) := by
  have hmain : ∀ r : ExecutionResult,
      r.hasError = true ↔
        (r.timed_out = true ∨ r.return_code ≠ 0 ∨ pyStrip r.stderr ≠ []) := by
    intro r
    unfold ExecutionResult.hasError
    simp [List.isEmpty_iff, or_assoc]
  refine ⟨hmain, ?_, ?_⟩
  · intro fp out err ⟨c, hc, hcs⟩
    refine (hmain _).mpr (Or.inr (Or.inr ?_))
    intro hnil
    have := (pyStrip_eq_nil_iff err).mp hnil c hc
    rw [this] at hcs
    exact absurd hcs (by simp)
  · intro fp out err h
    have hnil : pyStrip err = [] := (pyStrip_eq_nil_iff err).mpr h
    unfold ExecutionResult.hasError
    simp [hnil]

/-- Witness for `hasError_characterization` at concrete inputs:
stderr `"oops"` (exit 0, no timeout) is an error; stderr `" \n"` is not. -/
theorem hasError_characterization_witness :
    (ExecutionResult.mk [] 0 [] (pys "oops") false).hasError = true ∧
    (ExecutionResult.mk [] 0 [] (pys " \n") false).hasError = false :=
  ⟨hasError_characterization.2.1 [] [] (pys "oops") ⟨'o', by decide, by decide⟩,
   hasError_characterization.2.2 [] [] (pys " \n") (by decide)⟩

/-- C2 counterexample: the relative path `"a/../b"` contains a `..`
segment, yet the resolver accepts it (the collapsed candidate stays
inside the project root), so "every relative path containing a `..`
segment fails with a path-escape error" is false as stated. -/
theorem resolver_dotdot_accepted :
    (parsePath (pys "a/../b")).absolute = false ∧
    pys ".." ∈ (parsePath (pys "a/../b")).segments ∧
    resolveProjectPath [pys "home"] (pys "app") (pys "a/../b") =
      Except.ok [pys "home", pys "projects", pys "app", pys "b"] :=
  ⟨rfl, by decide, rfl⟩

/-- C2 (amended): the resolver fails with the path-escape `ValueError` —
and the write path performs no filesystem mutation — exactly when the
fully collapsed candidate is neither equal to nor nested under the fully
collapsed project root; whenever it succeeds, the returned canonical path
is at or below the canonical root.  (So `..` segments and absolute
prefixes whose collapsed form escapes the root fail; ones that stay
inside the root are accepted.) -/
theorem resolver_escape_characterization :
    (∀ cwd projectName fileName,
      underRoot (projectRootOf cwd projectName) (targetOf cwd projectName fileName) = false →
      resolveProjectPath cwd projectName fileName =
        Except.error (pys "Invalid path outside project root: " ++ fileName)) ∧
    (∀ cwd projectName fileName target,
      resolveProjectPath cwd projectName fileName = Except.ok target →
      underRoot (projectRootOf cwd projectName) target = true) ∧
    (∀ cwd fs projectName fileName content,
      underRoot (projectRootOf cwd projectName) (targetOf cwd projectName fileName) = false →
      writeFile cwd fs projectName fileName content =
        (fs, Except.error (pys "Invalid path outside project root: " ++ fileName))) := by
  refine ⟨?_, ?_, ?_⟩
  · intro cwd n f h
    unfold resolveProjectPath
    rw [h]
    simp
  · intro cwd n f t h
    unfold resolveProjectPath at h
    by_cases hu : underRoot (projectRootOf cwd n) (targetOf cwd n f) = true
    · rw [if_pos hu] at h
      cases h
      exact hu
    · rw [if_neg hu] at h
      cases h
  · intro cwd fs n f c h
    unfold writeFile resolveProjectPath
    rw [h]
    simp

/-- Witness for `resolver_escape_characterization`: the classic
`"../../etc/passwd"` traversal input is rejected and leaves the
filesystem untouched. -/
theorem resolver_escape_characterization_witness :
    resolveProjectPath [pys "home"] (pys "app") (pys "../../etc/passwd") =
      Except.error (pys "Invalid path outside project root: " ++ pys "../../etc/passwd") ∧
    writeFile [pys "home"] [] (pys "app") (pys "../../etc/passwd") (pys "x") =
      ([], Except.error (pys "Invalid path outside project root: " ++ pys "../../etc/passwd")) :=
  ⟨resolver_escape_characterization.1 [pys "home"] (pys "app") (pys "../../etc/passwd")
      (by decide),
   resolver_escape_characterization.2.2 [pys "home"] [] (pys "app") (pys "../../etc/passwd")
      (pys "x") (by decide)⟩

/-- C5: whenever `run_python_file` returns from a child process that
exceeded the wall-clock timeout, it has called `process.kill()`, drained
the remaining buffered output into the result, and the result carries
`timed_out = true`, `return_code = 124`, and the captured stderr with the
human-readable timeout notice appended (then stripped). -/
theorem timeout_execution_result :
    ∀ timeoutSeconds cwd fs projectName fileName out err result killed,
      runPythonFile timeoutSeconds cwd fs projectName fileName
          (ProcOutcome.timedOut out err) = Except.ok (result, killed) →
      killed = true ∧
      result.timed_out = true ∧
      result.return_code = 124 ∧
      result.stdout = out ∧
      result.stderr = pyStrip (err ++ '\n' :: timeoutMessage timeoutSeconds) ∧
      timeoutMessage timeoutSeconds <:+ result.stderr ∧
      result.hasError = true := by
  intro t cwd fs n f out err result killed h
  unfold runPythonFile at h
  rcases hres : resolveProjectPath cwd n f with e | filePath <;> rw [hres] at h
  · cases h
  · dsimp only at h
    by_cases hex : fsRead fs filePath = none
    · rw [if_pos hex] at h; cases h
    · rw [if_neg hex] at h
      by_cases hpy : hasPySuffix filePath = true
      · rw [if_neg (by simp [hpy])] at h
        cases h
        have hhead : timeoutMessage t =
            'E' :: ((pys "xecution timed out after " ++ (toString t).data) ++
              pys " seconds.") := rfl
        have hrev : (timeoutMessage t).reverse =
            '.' :: (pys "sdnoces " ++
              (pys "Execution timed out after " ++ (toString t).data).reverse) := by
          show ((pys "Execution timed out after " ++ (toString t).data) ++
            pys " seconds.").reverse = _
          rw [List.reverse_append]
          rfl
        have hsuf : timeoutMessage t <:+ pyStrip ((err ++ ['\n']) ++ timeoutMessage t) :=
          suffix_pyStrip_append (err ++ ['\n']) (timeoutMessage t) 'E' '.' _ _
            hhead (by decide) hrev (by decide)
        have hsplit : err ++ '\n' :: timeoutMessage t = (err ++ ['\n']) ++ timeoutMessage t := by
          rw [List.append_assoc]
          rfl
        refine ⟨rfl, rfl, rfl, rfl, rfl, ?_, rfl⟩
        rw [hsplit]
        exact hsuf
      · rw [if_pos (by simpa using hpy)] at h
        cases h

/-- Witness for `timeout_execution_result`: a concrete timed-out run of
`projects/app/hello.py` yields kill, `timed_out`, exit 124 and the notice. -/
theorem timeout_execution_result_witness :
    runPythonFile 45 [pys "home"]
        [([pys "home", pys "projects", pys "app", pys "hello.py"], pys "x")]
        (pys "app") (pys "hello.py") (ProcOutcome.timedOut (pys "out") (pys "boom")) =
      Except.ok ({ file_path := [pys "home", pys "projects", pys "app", pys "hello.py"]
                   return_code := 124, stdout := pys "out"
                   stderr := pyStrip (pys "boom" ++ '\n' :: timeoutMessage 45)
                   timed_out := true }, true) ∧
    timeoutMessage 45 <:+ pyStrip (pys "boom" ++ '\n' :: timeoutMessage 45) :=
  ⟨rfl,
    (timeout_execution_result 45 [pys "home"]
      [([pys "home", pys "projects", pys "app", pys "hello.py"], pys "x")]
      (pys "app") (pys "hello.py") (pys "out") (pys "boom") _ _ rfl).2.2.2.2.2.1⟩

/-! ## Lemmas about the RPC retry loop -/

theorem range_map_pow_cons (base : ℚ) (attempt k : Nat) :
    (List.range (k + 1)).map (fun i => base * 2 ^ (attempt + i)) =
      base * 2 ^ attempt ::
        (List.range k).map (fun i => base * 2 ^ (attempt + 1 + i)) := by
  rw [List.range_succ_eq_map, List.map_cons, List.map_map]
  have h1 : base * 2 ^ (attempt + 0) = base * 2 ^ attempt := by rw [Nat.add_zero]
  have h2 : List.map ((fun i => base * 2 ^ (attempt + i)) ∘ Nat.succ) (List.range k) =
      List.map (fun i => base * 2 ^ (attempt + 1 + i)) (List.range k) := by
    refine List.map_congr_left ?_
    intro i _
    simp only [Function.comp]
    congr 2
    omega
  rw [h2]
  simp only [h1]

theorem requestJsonAux_transport_pos (base : ℚ) (outcomes : Nat → AttemptOutcome)
    (hbase : base ≠ 0)
    (htrans : ∀ i, ∃ b, outcomes i = AttemptOutcome.transport b) :
    ∀ remaining attempt sleeps,
      (requestJsonAux base outcomes remaining attempt sleeps).attempts =
          attempt + remaining ∧
      (requestJsonAux base outcomes remaining attempt sleeps).sleeps =
        sleeps ++ (List.range (remaining - 1)).map (fun i => base * 2 ^ (attempt + i)) := by
  intro remaining
  induction remaining with
  | zero =>
    intro attempt sleeps
    refine ⟨rfl, ?_⟩
    show sleeps = sleeps ++ (List.range (0 - 1)).map (fun i => base * 2 ^ (attempt + i))
    simp
  | succ k ih =>
    intro attempt sleeps
    obtain ⟨b, hb⟩ := htrans attempt
    unfold requestJsonAux
    rw [hb]
    dsimp only
    by_cases hk : k = 0
    · subst hk
      rw [if_pos rfl]
      refine ⟨rfl, ?_⟩
      show sleeps = sleeps ++ (List.range (1 - 1)).map (fun i => base * 2 ^ (attempt + i))
      simp
    · rw [if_neg hk]
      have hbk : base * 2 ^ attempt ≠ 0 :=
        mul_ne_zero hbase (pow_ne_zero attempt (by norm_num))
      rw [if_pos hbk]
      obtain ⟨ha, hs⟩ := ih (attempt + 1) (sleeps ++ [base * 2 ^ attempt])
      refine ⟨by rw [ha]; omega, ?_⟩
      rw [hs]
      obtain ⟨j, hj⟩ := Nat.exists_eq_succ_of_ne_zero hk
      subst hj
      rw [Nat.succ_sub_one, Nat.succ_sub_one, range_map_pow_cons]
      simp

theorem requestJsonAux_transport_zero (outcomes : Nat → AttemptOutcome)
    (htrans : ∀ i, ∃ b, outcomes i = AttemptOutcome.transport b) :
    ∀ remaining attempt sleeps,
      (requestJsonAux 0 outcomes remaining attempt sleeps).attempts =
          attempt + remaining ∧
      (requestJsonAux 0 outcomes remaining attempt sleeps).sleeps = sleeps := by
  intro remaining
  induction remaining with
  | zero => intro attempt sleeps; exact ⟨rfl, rfl⟩
  | succ k ih =>
    intro attempt sleeps
    obtain ⟨b, hb⟩ := htrans attempt
    unfold requestJsonAux
    rw [hb]
    dsimp only
    by_cases hk : k = 0
    · subst hk
      rw [if_pos rfl]
      exact ⟨rfl, rfl⟩
    · rw [if_neg hk]
      have hbk : ¬ ((0 : ℚ) * 2 ^ attempt ≠ 0) := by simp
      rw [if_neg hbk]
      obtain ⟨ha, hs⟩ := ih (attempt + 1) (sleeps ++ [])
      refine ⟨by rw [ha]; omega, by rw [hs]; simp⟩

/-- C6: under a sustained transport failure the client makes exactly
`max_retries + 1` HTTP attempts; with a positive backoff base the slept
delays are exactly `base * 2^i` for retry number `i` (0-indexed), with a
non-positive base nothing is slept at all, and in either case the delays
are non-decreasing. -/
theorem rpc_retry_budget_and_backoff :
    ∀ (maxRetries : Int) (base : ℚ) (outcomes : Nat → AttemptOutcome),
      0 ≤ maxRetries →
      (∀ i, ∃ b, outcomes i = AttemptOutcome.transport b) →
      (requestJson maxRetries base outcomes).attempts = maxRetries.toNat + 1 ∧
      (0 < base →
        (requestJson maxRetries base outcomes).sleeps =
          (List.range maxRetries.toNat).map (fun i => base * 2 ^ i)) ∧
      (base ≤ 0 → (requestJson maxRetries base outcomes).sleeps = []) ∧
      (requestJson maxRetries base outcomes).sleeps.Pairwise (· ≤ ·) := by
  intro maxRetries base outcomes hmr htrans
  have hmax : max 0 maxRetries = maxRetries := max_eq_right hmr
  by_cases hb : 0 < base
  · have hclamp : max 0 base = base := max_eq_right (le_of_lt hb)
    have h := requestJsonAux_transport_pos (max 0 base) outcomes
      (by rw [hclamp]; exact ne_of_gt hb) htrans (maxRetries.toNat + 1) 0 []
    unfold requestJson
    rw [hmax] at *
    obtain ⟨ha, hs⟩ := h
    rw [hclamp] at hs
    have hsleeps : (requestJsonAux (max 0 base) outcomes (maxRetries.toNat + 1) 0 []).sleeps =
        (List.range maxRetries.toNat).map (fun i => base * 2 ^ i) := by
      rw [hclamp, hs]
      simp
    refine ⟨by rw [ha]; omega, fun _ => hsleeps, fun hle => absurd hb (not_lt.mpr hle), ?_⟩
    rw [hsleeps, List.pairwise_map]
    refine List.Pairwise.imp ?_ (List.pairwise_lt_range maxRetries.toNat)
    intro i j hij
    exact mul_le_mul_of_nonneg_left
      (pow_le_pow_right₀ (by norm_num) (le_of_lt hij)) (le_of_lt hb)
  · have hclamp : max 0 base = 0 := max_eq_left (not_lt.mp hb)
    have h := requestJsonAux_transport_zero outcomes htrans (maxRetries.toNat + 1) 0 []
    unfold requestJson
    rw [hmax, hclamp]
    obtain ⟨ha, hs⟩ := h
    exact ⟨by rw [ha]; omega, fun hpos => absurd hpos hb, fun _ => hs,
      by rw [hs]; exact List.Pairwise.nil⟩

/-- Witness for `rpc_retry_budget_and_backoff`: with `max_retries = 2`
and base `1.5`, a sustained transport failure makes 3 attempts and sleeps
`[1.5, 3.0]`. -/
theorem rpc_retry_budget_and_backoff_witness :
    (requestJson 2 (3 / 2) (fun _ => AttemptOutcome.transport true)).attempts = 3 ∧
    (requestJson 2 (3 / 2) (fun _ => AttemptOutcome.transport true)).sleeps = [3 / 2, 3] := by
  have h := rpc_retry_budget_and_backoff 2 (3 / 2) (fun _ => AttemptOutcome.transport true)
    (by norm_num) (fun i => ⟨true, rfl⟩)
  refine ⟨h.1, ?_⟩
  rw [h.2.1 (by norm_num)]
  rw [show Int.toNat 2 = 2 from rfl, List.range_succ, List.range_succ, List.range_zero]
  norm_num

theorem requestJson_first_response (maxRetries : Int) (base : ℚ)
    (outcomes : Nat → AttemptOutcome) (status : Nat) (body : Option JsonVal)
    (h : outcomes 0 = AttemptOutcome.httpResponse status body) (h400 : status < 400) :
    requestJson maxRetries base outcomes =
      { result := firstBodyResult body, attempts := 1, sleeps := [] } := by
  unfold requestJson requestJsonAux
  rw [h]
  dsimp only
  rw [if_neg (show ¬ 400 ≤ status by omega)]
  rcases body with _ | v
  · rfl
  · rcases v <;> rfl

theorem requestJsonAux_attempts_ge (base : ℚ) (outcomes : Nat → AttemptOutcome) :
    ∀ remaining attempt sleeps,
      attempt ≤ (requestJsonAux base outcomes remaining attempt sleeps).attempts := by
  intro remaining
  induction remaining with
  | zero => intro attempt sleeps; exact le_refl _
  | succ k ih =>
    intro attempt sleeps
    unfold requestJsonAux
    rcases houtcome : outcomes attempt with b | ⟨status, body⟩ <;> dsimp only
    · by_cases hk : k = 0
      · rw [if_pos hk]; dsimp only; omega
      · rw [if_neg hk]
        exact le_trans (by omega) (ih (attempt + 1) _)
    · by_cases hst : 400 ≤ status
      · rw [if_pos hst]
        by_cases hk : k = 0
        · rw [if_pos hk]; dsimp only; omega
        · rw [if_neg hk]
          exact le_trans (by omega) (ih (attempt + 1) _)
      · rw [if_neg hst]
        rcases body with _ | v
        · dsimp only; omega
        · rcases v <;> dsimp only <;> omega

theorem requestJsonAux_attempts_ge_succ (base : ℚ) (outcomes : Nat → AttemptOutcome) :
    ∀ remaining attempt sleeps, 1 ≤ remaining →
      attempt + 1 ≤ (requestJsonAux base outcomes remaining attempt sleeps).attempts := by
  intro remaining attempt sleeps hrem
  obtain ⟨k, hk⟩ := Nat.exists_eq_succ_of_ne_zero (by omega : remaining ≠ 0)
  subst hk
  unfold requestJsonAux
  rcases houtcome : outcomes attempt with b | ⟨status, body⟩ <;> dsimp only
  · by_cases hk0 : k = 0
    · rw [if_pos hk0]
    · rw [if_neg hk0]
      exact le_trans (by omega) (requestJsonAux_attempts_ge base outcomes k (attempt + 1) _)
  · by_cases hst : 400 ≤ status
    · rw [if_pos hst]
      by_cases hk0 : k = 0
      · rw [if_pos hk0]
      · rw [if_neg hk0]
        exact le_trans (by omega) (requestJsonAux_attempts_ge base outcomes k (attempt + 1) _)
    · rw [if_neg hst]
      rcases body with _ | v
      · dsimp only; omega
      · rcases v <;> dsimp only <;> omega

/-- C1 counterexample: a response that arrives with HTTP status 500 (a
non-2xx status) is retried with backoff exactly like a transport failure
— with `max_retries = 2` and base `1.5` the client makes 3 attempts and
sleeps twice — contradicting the claim that such a response is classified
as an immediate failure without any retry attempt. -/
theorem non2xx_retried_counterexample :
    (requestJson 2 (3 / 2)
        (fun _ => AttemptOutcome.httpResponse 500 (some JsonVal.null))).attempts = 3 ∧
    (requestJson 2 (3 / 2)
        (fun _ => AttemptOutcome.httpResponse 500 (some JsonVal.null))).sleeps = [3 / 2, 3] := by
  constructor
  · rfl
  · norm_num [requestJson, requestJsonAux]

/-- C1 (amended): a response whose body is not well-formed JSON, a
well-formed body that is not a JSON object, and a well-formed object body
carrying a non-empty `error` field are each classified as an immediate
failure — one attempt, no sleep, no retry; but a response that arrives
with a 4xx/5xx status raises `requests.HTTPError`, a subclass of
`RequestException`, and is therefore retried exactly like a transport
failure (at least a second attempt whenever `max_retries ≥ 1`). -/
theorem rpc_protocol_error_classification :
    (∀ (maxRetries : Int) (base : ℚ) (outcomes : Nat → AttemptOutcome) status,
      outcomes 0 = AttemptOutcome.httpResponse status none → status < 400 →
      requestJson maxRetries base outcomes =
        { result := Except.error RpcError.nonJsonBody, attempts := 1, sleeps := [] }) ∧
    (∀ (maxRetries : Int) (base : ℚ) (outcomes : Nat → AttemptOutcome) status v,
      outcomes 0 = AttemptOutcome.httpResponse status (some v) → status < 400 →
      (∀ fields, v ≠ JsonVal.obj fields) →
      requestJson maxRetries base outcomes =
        { result := Except.error RpcError.payloadNotObject, attempts := 1, sleeps := [] }) ∧
    (∀ (maxRetries : Int) (base : ℚ) (outcomes : Nat → AttemptOutcome) status fields errText,
      outcomes 0 = AttemptOutcome.httpResponse status (some (JsonVal.obj fields)) →
      status < 400 →
      lookupField fields (pys "error") = some (JsonVal.str errText) →
      pyStrip errText ≠ [] →
      generate maxRetries base outcomes =
        { result := Except.error (RpcError.serverReported (pyStrip errText))
          attempts := 1, sleeps := [] }) ∧
    (∀ (maxRetries : Int) (base : ℚ) (outcomes : Nat → AttemptOutcome) status body,
      outcomes 0 = AttemptOutcome.httpResponse status body → 400 ≤ status →
      1 ≤ maxRetries →
      2 ≤ (requestJson maxRetries base outcomes).attempts) := by
  refine ⟨?_, ?_, ?_, ?_⟩
  · intro mr base outcomes status h h400
    rw [requestJson_first_response mr base outcomes status none h h400]
    rfl
  · intro mr base outcomes status v h h400 hv
    rw [requestJson_first_response mr base outcomes status (some v) h h400]
    rcases v with _ | b | n | s | items | fields
    · rfl
    · rfl
    · rfl
    · rfl
    · rfl
    · exact absurd rfl (hv fields)
  · intro mr base outcomes status fields errText h h400 hlook hne
    unfold generate
    rw [requestJson_first_response mr base outcomes status (some (JsonVal.obj fields)) h h400]
    dsimp only [firstBodyResult]
    rw [hlook]
    dsimp only
    rw [if_neg (by rw [ne_eq, ← List.isEmpty_iff] at hne; simpa using hne)]
  · intro mr base outcomes status body h h400 hmr
    unfold requestJson requestJsonAux
    rw [h]
    dsimp only
    rw [if_pos h400]
    have htn : (max 0 mr).toNat ≠ 0 := by
      have h1 : (1 : Int) ≤ max 0 mr := le_max_of_le_right hmr
      omega
    rw [if_neg htn]
    exact requestJsonAux_attempts_ge_succ _ _ _ 1 _ (by omega)

/-- Witness for `rpc_protocol_error_classification` at concrete inputs:
a non-JSON body, a JSON-array body, an object body with `error` set, and
a 500-status response with one retry allowed. -/
theorem rpc_protocol_error_classification_witness :
    requestJson 2 (3 / 2) (fun _ => AttemptOutcome.httpResponse 200 none) =
      { result := Except.error RpcError.nonJsonBody, attempts := 1, sleeps := [] } ∧
    requestJson 2 (3 / 2) (fun _ => AttemptOutcome.httpResponse 200 (some (JsonVal.arr []))) =
      { result := Except.error RpcError.payloadNotObject, attempts := 1, sleeps := [] } ∧
    generate 2 (3 / 2) (fun _ => AttemptOutcome.httpResponse 200
        (some (JsonVal.obj [(pys "error", JsonVal.str (pys " boom "))]))) =
      { result := Except.error (RpcError.serverReported (pys "boom"))
        attempts := 1, sleeps := [] } ∧
    2 ≤ (requestJson 2 (3 / 2)
        (fun _ => AttemptOutcome.httpResponse 500 (some JsonVal.null))).attempts := by
  refine ⟨?_, ?_, ?_, ?_⟩
  · have h := rpc_protocol_error_classification.1 2 (3 / 2)
      (fun _ => AttemptOutcome.httpResponse 200 none) 200 rfl (by omega)
    rw [h]
  · have h := rpc_protocol_error_classification.2.1 2 (3 / 2)
      (fun _ => AttemptOutcome.httpResponse 200 (some (JsonVal.arr []))) 200
      (JsonVal.arr []) rfl (by omega) (fun fields hobj => by cases hobj)
    rw [h]
  · have h := rpc_protocol_error_classification.2.2.1 2 (3 / 2)
      (fun _ => AttemptOutcome.httpResponse 200
        (some (JsonVal.obj [(pys "error", JsonVal.str (pys " boom "))]))) 200
      [(pys "error", JsonVal.str (pys " boom "))] (pys " boom ") rfl (by omega) rfl
      (by decide)
    rw [h]
    rfl
  · exact rpc_protocol_error_classification.2.2.2 2 (3 / 2)
      (fun _ => AttemptOutcome.httpResponse 500 (some JsonVal.null)) 500 (some JsonVal.null)
      rfl (by omega) (by omega)

/-! ## Lemmas about the sanitizer -/

theorem mem_collapseDisallowedAux :
    ∀ (s : PyStr) (flag : Bool) (c : Char),
      c ∈ collapseDisallowedAux flag s → allowedChar c = true := by
  intro s
  induction s with
  | nil => intro flag c hc; simp [collapseDisallowedAux] at hc
  | cons a t ih =>
    intro flag c hc
    unfold collapseDisallowedAux at hc
    by_cases ha : allowedChar a = true
    · rw [if_pos ha] at hc
      rcases List.mem_cons.mp hc with h | h
      · rw [h]; exact ha
      · exact ih false c h
    · rw [if_neg ha] at hc
      by_cases hf : flag = true
      · rw [if_pos hf] at hc
        exact ih true c hc
      · rw [if_neg hf] at hc
        rcases List.mem_cons.mp hc with h | h
        · rw [h]; decide
        · exact ih true c h

theorem mem_of_mem_strip2 (p : Char → Bool) {c : Char} {s : PyStr}
    (h : c ∈ dropEnd p (s.dropWhile p)) : c ∈ s := by
  unfold dropEnd at h
  have h1 := List.mem_reverse.mp h
  have h2 := (List.dropWhile_suffix p).subset h1
  have h3 := List.mem_reverse.mp h2
  exact (List.dropWhile_suffix p).subset h3

theorem mem_sanitizeProjectName (s : PyStr) (c : Char)
    (hc : c ∈ sanitizeProjectName s) : allowedChar c = true := by
  unfold sanitizeProjectName at hc
  by_cases h : pyStripChar '_' (collapseDisallowed (pyStrip s)) = []
  · rw [if_pos h] at hc
    revert hc
    revert c
    decide
  · rw [if_neg h] at hc
    exact mem_collapseDisallowedAux (pyStrip s) false c
      (mem_of_mem_strip2 (fun d => d = '_') hc)

theorem sanitizeProjectName_ne_nil (s : PyStr) : sanitizeProjectName s ≠ [] := by
  unfold sanitizeProjectName
  by_cases h : pyStripChar '_' (collapseDisallowed (pyStrip s)) = []
  · rw [if_pos h]; decide
  · rw [if_neg h]; exact h

theorem parsePath_sanitized (s : PyStr) :
    parsePath (sanitizeProjectName s) =
      { absolute := false, segments := [sanitizeProjectName s] } := by
  have hne := sanitizeProjectName_ne_nil s
  have hmem := mem_sanitizeProjectName s
  unfold parsePath
  have habs : (sanitizeProjectName s).head? = some '/' → False := by
    intro h
    have : '/' ∈ sanitizeProjectName s := by
      rcases hl : sanitizeProjectName s with _ | ⟨a, t⟩
      · rw [hl] at h; simp at h
      · rw [hl] at h
        simp only [List.head?_cons, Option.some_inj] at h
        rw [h] at hl ⊢
        exact List.mem_cons_self '/' t
    have := hmem '/' this
    simp [allowedChar] at this
  have hsplit : (sanitizeProjectName s).splitOn '/' = [sanitizeProjectName s] := by
    show (sanitizeProjectName s).splitOnP (· == '/') = [sanitizeProjectName s]
    refine List.splitOnP_eq_single _ _ ?_
    intro x hx
    have := hmem x hx
    intro hxeq
    rw [beq_iff_eq] at hxeq
    rw [hxeq] at this
    simp [allowedChar] at this
  congr 1
  · simp only [decide_eq_false_iff_not]
    exact habs
  · rw [hsplit]
    have h1 : sanitizeProjectName s ≠ [] := hne
    have h2 : sanitizeProjectName s ≠ ['.'] := by
      intro hdot
      have := hmem '.' (by rw [hdot]; exact List.mem_cons_self '.' [])
      simp [allowedChar] at this
    simp [List.filter, h1, h2]

/-- C8: for every input string the project-name sanitization returns a
non-empty string whose characters all lie in `[A-Za-z0-9_-]`, and the
orchestrator's project root is `projects/<sanitized name>` — derived only
from the sanitized name. -/
theorem sanitize_and_project_root :
    (∀ s, sanitizeProjectName s ≠ [] ∧
      ∀ c ∈ sanitizeProjectName s, allowedChar c = true) ∧
    (∀ timeoutSeconds cwd (o : Oracles) fs plan,
      (runPlan timeoutSeconds cwd o fs plan).2.projectRoot =
        { absolute := false
          segments := [pys "projects", sanitizeProjectName plan.project_name] }) := by
  refine ⟨fun s => ⟨sanitizeProjectName_ne_nil s, mem_sanitizeProjectName s⟩, ?_⟩
  intro t cwd o fs plan
  show joinPath projectsRootPath (parsePath (sanitizeProjectName plan.project_name)) = _
  rw [parsePath_sanitized]
  rfl

/-- Witness for `sanitize_and_project_root`: the raw name `" My App! "`
sanitizes to `"My_App"` and the derived project root is
`projects/My_App`. -/
theorem sanitize_and_project_root_witness :
    sanitizeProjectName (pys " My App! ") = pys "My_App" ∧
    sanitizeProjectName (pys " My App! ") ≠ [] ∧
    (runPlan 45 [pys "home"]
        { gen := fun _ _ => Except.ok []
          fix := fun _ _ _ => Except.ok []
          proc := fun _ _ => ProcOutcome.completed (some 0) [] [] } []
        { project_name := pys " My App! ", tech_stack := [], tasks := [] }).2.projectRoot =
      { absolute := false, segments := [pys "projects", pys "My_App"] } := by
  refine ⟨by decide, (sanitize_and_project_root.1 (pys " My App! ")).1, ?_⟩
  have h := sanitize_and_project_root.2 45 [pys "home"]
    { gen := fun _ _ => Except.ok []
      fix := fun _ _ _ => Except.ok []
      proc := fun _ _ => ProcOutcome.completed (some 0) [] [] } []
    { project_name := pys " My App! ", tech_stack := [], tasks := [] }
  rw [h]
  decide

/-! ## Lemmas about plan validation -/

theorem normTask_invariants (i : Int) (a : JsonVal) (v : PlanTask)
    (h : normTask i a = some v) :
    v.description ≠ [] ∧ pyStrip v.description = v.description ∧
    v.files_to_create ≠ [] ∧ ∀ f ∈ v.files_to_create, f ≠ [] ∧ pyStrip f = f := by
  unfold normTask at h
  rcases a with _ | b | n | s | items | fields
  · cases h
  · cases h
  · cases h
  · cases h
  · cases h
  · dsimp only at h
    rcases hd : lookupField fields (pys "description") with _ | dv <;> rw [hd] at h
    · cases h
    · rcases dv with _ | b | n | d | items | fs2
      · cases h
      · cases h
      · cases h
      · dsimp only at h
        by_cases hde : (pyStrip d).isEmpty = true
        · rw [if_pos hde] at h; cases h
        · rw [if_neg hde] at h
          rcases hf : lookupField fields (pys "files_to_create") with _ | fv <;> rw [hf] at h
          · cases h
          · rcases fv with _ | b | n | s2 | fps | fs3
            · cases h
            · cases h
            · cases h
            · cases h
            · dsimp only at h
              by_cases hnf : ((fps.map (fun fp => pyStrip (pyRender fp))).filter
                  (fun f => !f.isEmpty)).isEmpty = true
              · rw [if_pos hnf] at h; cases h
              · rw [if_neg hnf] at h
                cases h
                refine ⟨?_, pyStrip_idem d, ?_, ?_⟩
                · intro hnil
                  dsimp only at hnil
                  rw [hnil] at hde
                  exact hde rfl
                · intro hnil
                  dsimp only at hnil
                  rw [hnil] at hnf
                  exact hnf rfl
                · intro f hfm
                  dsimp only at hfm
                  obtain ⟨hmem, hfne⟩ := List.mem_filter.mp hfm
                  obtain ⟨fp, _, hfp⟩ := List.mem_map.mp hmem
                  constructor
                  · intro hnil
                    rw [hnil] at hfne
                    simp at hfne
                  · rw [← hfp]
                    exact pyStrip_idem (pyRender fp)
            · cases h
      · cases h
      · cases h

theorem normTasks_invariants :
    ∀ (ts : List JsonVal) (i : Int) (t : PlanTask), t ∈ normTasks i ts →
      t.description ≠ [] ∧ pyStrip t.description = t.description ∧
      t.files_to_create ≠ [] ∧ ∀ f ∈ t.files_to_create, f ≠ [] ∧ pyStrip f = f := by
  intro ts
  induction ts with
  | nil => intro i t ht; simp [normTasks] at ht
  | cons a rest ih =>
    intro i t ht
    unfold normTasks at ht
    rcases hn : normTask i a with _ | v <;> rw [hn] at ht
    · exact ih (i + 1) t ht
    · rcases List.mem_cons.mp ht with h | h
      · subst h
        exact normTask_invariants i a t hn
      · exact ih (i + 1) t h

/-- C10: plan validation returns only plans in which every surviving task
has a non-empty trimmed description and a non-empty list of non-empty
trimmed file paths (the `step_number` is an integer by construction of
the normalized task), and it raises exactly when the project name is
missing or blank, the tasks list is missing or empty, or no task survives
normalization — a task violating the per-task conditions is silently
dropped rather than causing a failure. -/
theorem validatePlan_characterization :
    (∀ plan v, validatePlan plan = Except.ok v →
      ∀ t ∈ v.tasks,
        t.description ≠ [] ∧ pyStrip t.description = t.description ∧
        t.files_to_create ≠ [] ∧ ∀ f ∈ t.files_to_create, f ≠ [] ∧ pyStrip f = f) ∧
    (∀ plan, (validatePlan plan).toOption = none ↔ validateRaises plan = true) := by
  constructor
  · intro plan v h
    unfold validatePlan at h
    rcases hpn : lookupField plan (pys "project_name") with _ | nv <;> rw [hpn] at h
    · cases h
    · rcases nv with _ | b | n | name | items | fs2
      · cases h
      · cases h
      · cases h
      · dsimp only at h
        by_cases hne : (pyStrip name).isEmpty = true
        · rw [if_pos hne] at h; cases h
        · rw [if_neg hne] at h
          rcases ht : lookupField plan (pys "tasks") with _ | tv <;> rw [ht] at h
          · cases h
          · rcases tv with _ | b | n | s2 | ts | fs3
            · cases h
            · cases h
            · cases h
            · cases h
            · dsimp only at h
              by_cases hts : ts.isEmpty = true
              · rw [if_pos hts] at h; cases h
              · rw [if_neg hts] at h
                by_cases hsv : (normTasks 1 ts).isEmpty = true
                · rw [if_pos hsv] at h; cases h
                · rw [if_neg hsv] at h
                  cases h
                  intro t htm
                  exact normTasks_invariants ts 1 t htm
            · cases h
      · cases h
      · cases h
  · intro plan
    unfold validatePlan validateRaises goodProjectName goodTasksList hasSurvivor rawTasks
    rcases hpn : lookupField plan (pys "project_name") with _ | nv
    · simp [Except.toOption]
    · rcases nv with _ | b | n | name | items | fs2
      · simp [Except.toOption]
      · simp [Except.toOption]
      · simp [Except.toOption]
      · dsimp only
        by_cases hne : (pyStrip name).isEmpty = true
        · rw [if_pos hne]
          simp [Except.toOption, hne]
        · rw [if_neg hne]
          rcases ht : lookupField plan (pys "tasks") with _ | tv
          · simp [Except.toOption, hne]
          · rcases tv with _ | b | n | s2 | ts | fs3
            · simp [Except.toOption, hne]
            · simp [Except.toOption, hne]
            · simp [Except.toOption, hne]
            · simp [Except.toOption, hne]
            · dsimp only
              by_cases hts : ts.isEmpty = true
              · rw [if_pos hts]
                simp [Except.toOption, hne, hts]
              · rw [if_neg hts]
                by_cases hsv : (normTasks 1 ts).isEmpty = true
                · rw [if_pos hsv]
                  simp [Except.toOption, hne, hts, hsv]
                · rw [if_neg hsv]
                  simp [Except.toOption, hne, hts, hsv]
            · simp [Except.toOption, hne]
      · simp [Except.toOption]
      · simp [Except.toOption]

/-- Witness for `validatePlan_characterization`: a raw plan with one
valid task and one junk entry validates to exactly the valid task (the
junk entry is dropped), and the empty raw plan raises. -/
theorem validatePlan_characterization_witness :
    validatePlan
        [(pys "project_name", JsonVal.str (pys " app ")),
         (pys "tasks", JsonVal.arr
           [JsonVal.obj
              [(pys "description", JsonVal.str (pys " do it ")),
               (pys "files_to_create", JsonVal.arr [JsonVal.str (pys " hello.py "), JsonVal.str (pys "  ")])],
            JsonVal.num 3])] =
      Except.ok
        { project_name := pys "app", tech_stack := []
          tasks := [{ step_number := 1, description := pys "do it"
                      files_to_create := [pys "hello.py"] }] } ∧
    (pys "do it" ≠ [] ∧ pyStrip (pys "do it") = pys "do it" ∧
      [pys "hello.py"] ≠ ([] : List PyStr) ∧
      ∀ f ∈ [pys "hello.py"], f ≠ [] ∧ pyStrip f = f) ∧
    (validatePlan []).toOption = none := by
  refine ⟨rfl, ?_, ?_⟩
  · exact validatePlan_characterization.1
      [(pys "project_name", JsonVal.str (pys " app ")),
       (pys "tasks", JsonVal.arr
         [JsonVal.obj
            [(pys "description", JsonVal.str (pys " do it ")),
             (pys "files_to_create", JsonVal.arr [JsonVal.str (pys " hello.py "), JsonVal.str (pys "  ")])],
          JsonVal.num 3])]
      { project_name := pys "app", tech_stack := []
        tasks := [{ step_number := 1, description := pys "do it"
                    files_to_create := [pys "hello.py"] }] } rfl
      { step_number := 1, description := pys "do it"
        files_to_create := [pys "hello.py"] } (List.mem_cons_self _ _)
  · exact (validatePlan_characterization.2 []).mpr (by decide)

/-! ## Lemmas about path resolution and the filesystem -/

theorem collapseRev_no_dotdot :
    ∀ (segs acc : List PyStr), (∀ s ∈ acc, s ≠ pys "..") →
      ∀ s ∈ collapseRev acc segs, s ≠ pys ".." := by
  intro segs
  induction segs with
  | nil => intro acc hacc s hs; exact hacc s hs
  | cons a t ih =>
    intro acc hacc s hs
    unfold collapseRev at hs
    rw [List.foldl_cons] at hs
    unfold collapseStep at hs
    by_cases ha : a = pys ".."
    · rw [if_pos ha] at hs
      exact ih acc.tail (fun x hx => hacc x (List.mem_of_mem_tail hx)) s hs
    · rw [if_neg ha] at hs
      refine ih (a :: acc) ?_ s hs
      intro x hx
      rcases List.mem_cons.mp hx with h | h
      · rw [h]; exact ha
      · exact hacc x h

theorem collapseRev_push_all :
    ∀ (l acc : List PyStr), (∀ s ∈ l, s ≠ pys "..") →
      collapseRev acc l = l.reverse ++ acc := by
  intro l
  induction l with
  | nil => intro acc _; simp [collapseRev]
  | cons a t ih =>
    intro acc h
    unfold collapseRev
    rw [List.foldl_cons]
    have hstep : collapseStep acc a = a :: acc := by
      unfold collapseStep
      rw [if_neg (h a (List.mem_cons_self a t))]
    rw [hstep]
    have hrec := ih (a :: acc) (fun x hx => h x (List.mem_cons_of_mem a hx))
    unfold collapseRev at hrec
    rw [hrec]
    simp

theorem collapseRev_resolved (cwd : List PyStr) (hcwd : ∀ s ∈ cwd, s ≠ pys "..")
    (p : PyPath) :
    collapseRev [] (resolvePath cwd p) = (resolvePath cwd p).reverse := by
  have hnd : ∀ s ∈ resolvePath cwd p, s ≠ pys ".." := by
    intro s hs
    unfold resolvePath at hs
    by_cases habs : p.absolute = true
    · rw [if_pos habs] at hs
      exact collapseRev_no_dotdot p.segments [] (by simp) s (List.mem_reverse.mp hs)
    · rw [if_neg habs] at hs
      refine collapseRev_no_dotdot p.segments cwd.reverse ?_ s (List.mem_reverse.mp hs)
      intro x hx
      exact hcwd x (List.mem_reverse.mp hx)
  rw [collapseRev_push_all (resolvePath cwd p) [] hnd]
  simp

/-- Resolving a child against an already-resolved base gives the same
canonical path as resolving the joined raw path (the canonical `cwd`
contains no `..` segments). -/
theorem resolve_join_assoc (cwd : List PyStr) (hcwd : ∀ s ∈ cwd, s ≠ pys "..")
    (base child : PyPath) :
    resolvePath cwd (joinPath (asAbs (resolvePath cwd base)) child) =
      resolvePath cwd (joinPath base child) := by
  by_cases hc : child.absolute = true
  · unfold joinPath
    rw [if_pos hc, if_pos hc]
  · unfold joinPath
    rw [if_neg hc, if_neg hc]
    unfold asAbs
    unfold resolvePath
    by_cases hb : base.absolute = true
    · rw [if_pos (by simp : (true : Bool) = true), if_pos hb]
      dsimp only
      rw [if_pos hb]
      unfold collapseRev
      rw [List.foldl_append, List.foldl_append]
      have h1 : collapseRev [] (resolvePath cwd base) = (resolvePath cwd base).reverse :=
        collapseRev_resolved cwd hcwd base
      unfold collapseRev at h1
      have h2 : resolvePath cwd base = (List.foldl collapseStep [] base.segments).reverse := by
        unfold resolvePath
        rw [if_pos hb]
        rfl
      rw [h2] at h1
      rw [List.reverse_reverse] at h1
      rw [h1]
    · rw [if_pos (by simp : (true : Bool) = true), if_neg hb]
      dsimp only
      rw [if_neg hb]
      unfold collapseRev
      rw [List.foldl_append, List.foldl_append]
      have h1 : collapseRev [] (resolvePath cwd base) = (resolvePath cwd base).reverse :=
        collapseRev_resolved cwd hcwd base
      unfold collapseRev at h1
      have h2 : resolvePath cwd base = (List.foldl collapseStep cwd.reverse base.segments).reverse := by
        unfold resolvePath
        rw [if_neg hb]
        rfl
      rw [h2] at h1
      rw [List.reverse_reverse] at h1
      rw [h1]

theorem resolveProjectPath_ok_eq (cwd : List PyStr) (projectName fileName : PyStr)
    (target : List PyStr)
    (h : resolveProjectPath cwd projectName fileName = Except.ok target) :
    target = targetOf cwd projectName fileName := by
  unfold resolveProjectPath at h
  by_cases hu : underRoot (projectRootOf cwd projectName) (targetOf cwd projectName fileName) = true
  · rw [if_pos hu] at h
    cases h
    rfl
  · rw [if_neg hu] at h
    cases h

/-- Under canonical inputs (no whitespace padding, canonical `cwd`), the
repair step's read target `(Path("projects") / pn / fn).resolve()` is the
same canonical path the sandboxed writer wrote to. -/
theorem fixReadTarget_eq_targetOf (cwd : List PyStr) (projectName fileName : PyStr)
    (hcwd : ∀ s ∈ cwd, s ≠ pys "..")
    (hpn : pyStrip projectName = projectName) (hfn : pyStrip fileName = fileName) :
    fixReadTarget cwd projectName fileName = targetOf cwd projectName fileName := by
  unfold fixReadTarget targetOf projectRootOf
  rw [hpn, hfn]
  rw [resolve_join_assoc cwd hcwd (joinPath projectsRootPath (parsePath projectName))
    (parsePath fileName)]

theorem fsRead_fsWrite_self (fs : FS) (key : List PyStr) (content : PyStr) :
    fsRead (fsWrite fs key content) key = some content := by
  simp [fsRead, fsWrite]

/-- When the just-written file can be read back, the repair step calls
the repair collaborator exactly once and re-executes at most once,
whatever the collaborator and the rewrite do. -/
theorem attemptFixOnce_counts (timeoutSeconds : Nat) (cwd : List PyStr) (o : Oracles)
    (fs : FS) (projectName fileName : PyStr) (r1 : ExecutionResult) (origCode : PyStr)
    (hread : fsRead fs (fixReadTarget cwd projectName fileName) = some origCode) :
    ((attemptFixOnce timeoutSeconds cwd o fs projectName fileName r1).2.filter
        Event.isRepair).length = 1 ∧
    ((attemptFixOnce timeoutSeconds cwd o fs projectName fileName r1).2.filter
        Event.isExec).length ≤ 1 := by
  unfold attemptFixOnce
  rw [hread]
  dsimp only
  rcases hfix : o.fix origCode
      (if r1.stderr = [] then pys "Exit code: " ++ (toString r1.return_code).data
       else r1.stderr) fileName with e | fixedCode <;> dsimp only
  · constructor <;> simp [List.filter, Event.isRepair, Event.isExec]
  · rcases hw : (writeFile cwd fs projectName fileName fixedCode).2 with e | tw <;> dsimp only
    · constructor <;> simp [List.filter, Event.isRepair, Event.isExec]
    · constructor <;> simp [List.filter, Event.isRepair, Event.isExec]

/-- C9: every exception the execution engine raises while the
orchestrator runs a file — a path-escape `ValueError`, a missing file, or
an unsupported extension — is converted by `_execute_file` into a
synthesized `ExecutionResult` with `return_code = 1`, empty stdout, the
exception text as stderr and `timed_out = false`, whose `has_error` is
true (so the repair attempt is triggered rather than the file skipped). -/
theorem executeFile_synthesizes_on_exception :
    (∀ timeoutSeconds cwd fs projectName fileName proc e,
      runPythonFile timeoutSeconds cwd fs projectName fileName proc = Except.error e →
      executeFile timeoutSeconds cwd fs projectName fileName proc =
        { file_path := fixReadTarget cwd projectName fileName
          return_code := 1, stdout := [], stderr := e, timed_out := false } ∧
      (executeFile timeoutSeconds cwd fs projectName fileName proc).hasError = true) ∧
    (∀ timeoutSeconds cwd fs projectName fileName proc,
      underRoot (projectRootOf cwd projectName) (targetOf cwd projectName fileName) = false →
      runPythonFile timeoutSeconds cwd fs projectName fileName proc =
        Except.error (pys "Invalid path outside project root: " ++ fileName)) ∧
    (∀ timeoutSeconds cwd fs projectName fileName proc target,
      resolveProjectPath cwd projectName fileName = Except.ok target →
      fsRead fs target = none →
      runPythonFile timeoutSeconds cwd fs projectName fileName proc =
        Except.error (pys "Cannot execute missing file: " ++ joinSegs target)) ∧
    (∀ timeoutSeconds cwd fs projectName fileName proc target,
      resolveProjectPath cwd projectName fileName = Except.ok target →
      fsRead fs target ≠ none → hasPySuffix target = false →
      runPythonFile timeoutSeconds cwd fs projectName fileName proc =
        Except.error (pys "ExecutionEngine only supports Python files: " ++ joinSegs target)) := by
  refine ⟨?_, ?_, ?_, ?_⟩
  · intro t cwd fs pn fn proc e h
    constructor
    · unfold executeFile
      rw [h]
      rfl
    · unfold executeFile
      rw [h]
      rfl

  · intro t cwd fs pn fn proc h
    unfold runPythonFile resolveProjectPath
    rw [h]
    simp
  · intro t cwd fs pn fn proc target hres hmiss
    unfold runPythonFile
    rw [hres]
    dsimp only
    rw [if_pos hmiss]
  · intro t cwd fs pn fn proc target hres hex hpy
    unfold runPythonFile
    rw [hres]
    dsimp only
    rw [if_neg hex, if_pos (by simp [hpy])]

/-- Witness for `executeFile_synthesizes_on_exception`: executing the
missing file `projects/app/hello.py` on an empty filesystem synthesizes
an error result with exit code 1 and the exception text in stderr. -/
theorem executeFile_synthesizes_on_exception_witness :
    executeFile 45 [pys "home"] [] (pys "app") (pys "hello.py")
        (ProcOutcome.completed (some 0) [] []) =
      { file_path := fixReadTarget [pys "home"] (pys "app") (pys "hello.py")
        return_code := 1, stdout := []
        stderr := pys "Cannot execute missing file: " ++
          joinSegs [pys "home", pys "projects", pys "app", pys "hello.py"]
        timed_out := false } ∧
    (executeFile 45 [pys "home"] [] (pys "app") (pys "hello.py")
        (ProcOutcome.completed (some 0) [] [])).hasError = true :=
  executeFile_synthesizes_on_exception.1 45 [pys "home"] [] (pys "app") (pys "hello.py")
    (ProcOutcome.completed (some 0) [] [])
    (pys "Cannot execute missing file: " ++
      joinSegs [pys "home", pys "projects", pys "app", pys "hello.py"]) rfl

/-- C3: when a file's generation and write succeed, the written target is
a `.py` file and the first execution reports an error, the per-file loop
invokes the repair collaborator exactly once and performs at most two
execution attempts in total — there is never a second repair, whatever
the repair, rewrite and re-execution do.  (Canonical inputs: a `cwd`
without `..` segments, and names with no surrounding whitespace, as the
validated plan guarantees.) -/
theorem repair_attempted_exactly_once :
    ∀ timeoutSeconds cwd (o : Oracles) fs projectName description fileName code target,
      (∀ s ∈ cwd, s ≠ pys "..") →
      pyStrip projectName = projectName →
      pyStrip fileName = fileName →
      o.gen fileName description = Except.ok code →
      resolveProjectPath cwd projectName fileName = Except.ok target →
      hasPySuffix target = true →
      (executeFile timeoutSeconds cwd (fsWrite fs target code) projectName fileName
          (o.proc fileName 0)).hasError = true →
      ((processFile timeoutSeconds cwd o fs projectName description fileName).2.filter
          Event.isRepair).length = 1 ∧
      ((processFile timeoutSeconds cwd o fs projectName description fileName).2.filter
          Event.isExec).length ≤ 2 := by
  intro t cwd o fs pn desc fn code target hcwd hpn hfn hgen hres hpy hfail
  unfold processFile
  rw [hgen]
  dsimp only
  have hwrite : writeFile cwd fs pn fn code = (fsWrite fs target code, Except.ok target) := by
    unfold writeFile
    rw [hres]
  rw [hwrite]
  dsimp only
  rw [if_neg (by simp [hpy])]
  rw [if_neg (by simp [hfail])]
  dsimp only
  have hread : fsRead (fsWrite fs target code) (fixReadTarget cwd pn fn) = some code := by
    rw [fixReadTarget_eq_targetOf cwd pn fn hcwd hpn hfn,
      ← resolveProjectPath_ok_eq cwd pn fn target hres]
    exact fsRead_fsWrite_self fs target code
  obtain ⟨hrep, hexec⟩ := attemptFixOnce_counts t cwd o (fsWrite fs target code) pn fn
    (executeFile t cwd (fsWrite fs target code) pn fn (o.proc fn 0)) code hread
  have h0 : ∀ r : ExecutionResult,
      ([Event.genCall, Event.writeCall, Event.execCall r].filter Event.isRepair).length = 0 :=
    fun _ => rfl
  have h1 : ∀ r : ExecutionResult,
      ([Event.genCall, Event.writeCall, Event.execCall r].filter Event.isExec).length = 1 :=
    fun _ => rfl
  constructor
  · rw [List.filter_append, List.length_append, h0, hrep]
  · rw [List.filter_append, List.length_append, h1]
    omega

/-- Witness for `repair_attempted_exactly_once`: a concrete file whose
first run exits 1 and whose repaired version also fails gets exactly one
repair call and two execution attempts. -/
theorem repair_attempted_exactly_once_witness :
    ((processFile 45 [pys "home"]
        { gen := fun _ _ => Except.ok (pys "print(1)")
          fix := fun _ _ _ => Except.ok (pys "print(2)")
          proc := fun _ _ => ProcOutcome.completed (some 1) [] (pys "boom") }
        [] (pys "app") (pys "do it") (pys "hello.py")).2.filter
        Event.isRepair).length = 1 ∧
    ((processFile 45 [pys "home"]
        { gen := fun _ _ => Except.ok (pys "print(1)")
          fix := fun _ _ _ => Except.ok (pys "print(2)")
          proc := fun _ _ => ProcOutcome.completed (some 1) [] (pys "boom") }
        [] (pys "app") (pys "do it") (pys "hello.py")).2.filter
        Event.isExec).length ≤ 2 :=
  repair_attempted_exactly_once 45 [pys "home"]
    { gen := fun _ _ => Except.ok (pys "print(1)")
      fix := fun _ _ _ => Except.ok (pys "print(2)")
      proc := fun _ _ => ProcOutcome.completed (some 1) [] (pys "boom") }
    [] (pys "app") (pys "do it") (pys "hello.py") (pys "print(1)")
    [pys "home", pys "projects", pys "app", pys "hello.py"]
    (by decide) (by decide) (by decide) rfl rfl (by decide) (by decide)

theorem processFiles_report_names (timeoutSeconds : Nat) (cwd : List PyStr) (o : Oracles)
    (projectName description : PyStr) :
    ∀ (files : List PyStr) (fs : FS),
      (processFiles timeoutSeconds cwd o fs projectName description files).2.map
        (fun r => r.fileName) = files := by
  intro files
  induction files with
  | nil => intro fs; rfl
  | cons fn rest ih =>
    intro fs
    unfold processFiles
    dsimp only
    rw [List.map_cons]
    rw [ih]

theorem processTasks_report_names (timeoutSeconds : Nat) (cwd : List PyStr) (o : Oracles)
    (projectName : PyStr) :
    ∀ (tasks : List PlanTask) (fs : FS),
      (processTasks timeoutSeconds cwd o fs projectName tasks).2.map
        (fun r => r.fileName) = tasks.flatMap (fun task => task.files_to_create) := by
  intro tasks
  induction tasks with
  | nil => intro fs; rfl
  | cons task rest ih =>
    intro fs
    unfold processTasks
    dsimp only
    rw [List.map_append, processFiles_report_names, ih, List.flatMap_cons]

/-- C7: no file's failure aborts the run — the orchestrator emits exactly
one report per planned file, in plan order, whatever the collaborators
do; and an exception from the generator, from the writer, or from the
repair collaborator is caught at file granularity and converted into a
logged skip of that file. -/
theorem per_file_fault_isolation :
    (∀ timeoutSeconds cwd (o : Oracles) fs plan,
      (runPlan timeoutSeconds cwd o fs plan).2.reports.map (fun r => r.fileName) =
        plan.tasks.flatMap (fun task => task.files_to_create)) ∧
    (∀ timeoutSeconds cwd (o : Oracles) fs projectName description fileName e,
      o.gen fileName description = Except.error e →
      (processFile timeoutSeconds cwd o fs projectName description fileName).2 =
        [Event.genCall, Event.skipped Stage.generation e] ∧
      (processFile timeoutSeconds cwd o fs projectName description fileName).1 = fs) ∧
    (∀ timeoutSeconds cwd (o : Oracles) fs projectName description fileName code,
      o.gen fileName description = Except.ok code →
      underRoot (projectRootOf cwd projectName) (targetOf cwd projectName fileName) = false →
      (processFile timeoutSeconds cwd o fs projectName description fileName).2 =
        [Event.genCall, Event.writeCall,
         Event.skipped Stage.writing (pys "Invalid path outside project root: " ++ fileName)] ∧
      (processFile timeoutSeconds cwd o fs projectName description fileName).1 = fs) ∧
    (∀ timeoutSeconds cwd (o : Oracles) fs projectName description fileName code target e,
      (∀ s ∈ cwd, s ≠ pys "..") →
      pyStrip projectName = projectName →
      pyStrip fileName = fileName →
      o.gen fileName description = Except.ok code →
      resolveProjectPath cwd projectName fileName = Except.ok target →
      hasPySuffix target = true →
      (executeFile timeoutSeconds cwd (fsWrite fs target code) projectName fileName
          (o.proc fileName 0)).hasError = true →
      (∀ orig msg, o.fix orig msg fileName = Except.error e) →
      (processFile timeoutSeconds cwd o fs projectName description fileName).2 =
        [Event.genCall, Event.writeCall,
         Event.execCall (executeFile timeoutSeconds cwd (fsWrite fs target code) projectName
           fileName (o.proc fileName 0)),
         Event.repairCall, Event.skipped Stage.repairing e]) := by
  refine ⟨?_, ?_, ?_, ?_⟩
  · intro t cwd o fs plan
    unfold runPlan
    dsimp only
    exact processTasks_report_names t cwd o (sanitizeProjectName plan.project_name)
      plan.tasks fs
  · intro t cwd o fs pn desc fn e hgen
    unfold processFile
    rw [hgen]
    exact ⟨rfl, rfl⟩
  · intro t cwd o fs pn desc fn code hgen hesc
    unfold processFile
    rw [hgen]
    dsimp only
    have hwrite : writeFile cwd fs pn fn code =
        (fs, Except.error (pys "Invalid path outside project root: " ++ fn)) := by
      unfold writeFile resolveProjectPath
      rw [hesc]
      simp
    rw [hwrite]
    exact ⟨rfl, rfl⟩
  · intro t cwd o fs pn desc fn code target e hcwd hpn hfn hgen hres hpy hfail hfix
    unfold processFile
    rw [hgen]
    dsimp only
    have hwrite : writeFile cwd fs pn fn code = (fsWrite fs target code, Except.ok target) := by
      unfold writeFile
      rw [hres]
    rw [hwrite]
    dsimp only
    rw [if_neg (by simp [hpy])]
    rw [if_neg (by simp [hfail])]
    dsimp only
    have hread : fsRead (fsWrite fs target code) (fixReadTarget cwd pn fn) = some code := by
      rw [fixReadTarget_eq_targetOf cwd pn fn hcwd hpn hfn,
        ← resolveProjectPath_ok_eq cwd pn fn target hres]
      exact fsRead_fsWrite_self fs target code
    unfold attemptFixOnce
    rw [hread]
    dsimp only
    rw [hfix]
    rfl

/-- Witness for `per_file_fault_isolation`: with a generator that always
raises, a two-file plan still yields a report for each file in order, and
each file's events are the logged generation skip. -/
theorem per_file_fault_isolation_witness :
    (runPlan 45 [pys "home"]
        { gen := fun _ _ => Except.error (pys "boom")
          fix := fun _ _ _ => Except.ok (pys "x")
          proc := fun _ _ => ProcOutcome.completed (some 0) [] [] }
        []
        { project_name := pys "app", tech_stack := []
          tasks := [{ step_number := 1, description := pys "do it"
                      files_to_create := [pys "a.py", pys "b.py"] }] }).2.reports.map
      (fun r => r.fileName) = [pys "a.py", pys "b.py"] ∧
    (processFile 45 [pys "home"]
        { gen := fun _ _ => Except.error (pys "boom")
          fix := fun _ _ _ => Except.ok (pys "x")
          proc := fun _ _ => ProcOutcome.completed (some 0) [] [] }
        [] (pys "app") (pys "do it") (pys "a.py")).2 =
      [Event.genCall, Event.skipped Stage.generation (pys "boom")] :=
  ⟨per_file_fault_isolation.1 45 [pys "home"]
      { gen := fun _ _ => Except.error (pys "boom")
        fix := fun _ _ _ => Except.ok (pys "x")
        proc := fun _ _ => ProcOutcome.completed (some 0) [] [] }
      []
      { project_name := pys "app", tech_stack := []
        tasks := [{ step_number := 1, description := pys "do it"
                    files_to_create := [pys "a.py", pys "b.py"] }] },
   (per_file_fault_isolation.2.1 45 [pys "home"]
      { gen := fun _ _ => Except.error (pys "boom")
        fix := fun _ _ _ => Except.ok (pys "x")
        proc := fun _ _ => ProcOutcome.completed (some 0) [] [] }
      [] (pys "app") (pys "do it") (pys "a.py") (pys "boom") rfl).1⟩

end AuraX
